import Mathlib

/-!
# A shallow embedding of `stac_tiler` (developmentseed/stac-tiler)

This file embeds the data model and the operations of `stac_tiler/reader.py`
into Lean and proves functional properties about them.

Modelling conventions:
* Python machine floats are modelled by the inductive `FVal`, which separates
  the finiteness classification (finite / NaN / +Inf / -Inf) relevant to
  `numpy.nan_to_num` from the numeric payload (an integer).
* Pixel arrays are lists of bands; a band is a rows-by-columns list of `FVal`.
  Masks are rows-by-columns lists of `Nat` (uint8 pixel values).
* Python dictionaries (insertion ordered, unique keys) are association lists.
* Fallible code (`raise`) is modelled with `Except String`.
* The external single-raster reader (`rio_tiler_crs.COGReader`) and the
  `numexpr` evaluator are opaque collaborators; the models take them as
  function parameters (`readTile`, `evalE`, ...).  The thread-pool fan-out
  `executor.map(worker, assets)` preserves input order, so it is modelled as
  an order-preserving `List.map` over the asset urls.
-/

set_option autoImplicit false
set_option maxRecDepth 8192

namespace StacTiler

/-- Classification of an IEEE double as used by `numpy.nan_to_num`:
finite values carry an integer payload, the non-finite values are
NaN and the two infinities. -/
inductive FVal where
  | finite (x : Int)
  | nan
  | posInf
  | negInf
deriving DecidableEq, Repr

/-- The largest finite IEEE double, `(2 - 2^-52) * 2^1023 = 2^1024 - 2^971`
(printed by numpy as `1.7976931348623157e+308`).  `numpy.nan_to_num`
substitutes it for `+Inf` by default. -/
def FLOAT_MAX : Int := 2 ^ 1024 - 2 ^ 971

/-- `numpy.nan_to_num` with default arguments: NaN becomes `0.0`,
`+Inf` becomes the largest finite double and `-Inf` its negation;
finite values pass through unchanged. -/
def nan_to_num : FVal → FVal
  | .finite x => .finite x
  | .nan => .finite 0
  | .posInf => .finite FLOAT_MAX
  | .negInf => .finite (-FLOAT_MAX)

/-- Whether a value is finite (neither NaN nor an infinity). -/
def FVal.isFinite : FVal → Bool
  | .finite _ => true
  | _ => false

/-- One raster band: rows of pixel values. -/
abbrev Band := List (List FVal)

/-- A validity mask: rows of uint8 pixel values (`255` = valid, `0` = invalid
in the merged output; any nonzero value counts as truthy on input, matching
`numpy.all`). -/
abbrev Grid := List (List Nat)

/-- Elementwise `numpy.nan_to_num` over a 2-D band. -/
def nanFixBand (b : Band) : Band := b.map (fun row => row.map nan_to_num)

/-- Python `expression.split(",")` over a char list: one (possibly empty)
chunk between consecutive commas, never collapsing empties. -/
def splitCommaAux : List Char → List (List Char)
  | [] => [[]]
  | x :: xs =>
    let rest := splitCommaAux xs
    if x = ',' then [] :: rest
    else
      match rest with
      | r :: rs => (x :: r) :: rs
      | [] => [[x]]

/-- Python `expression.split(",")`. -/
def splitComma (s : String) : List String :=
  (splitCommaAux s.toList).map String.mk

/-- Python `bloc.strip()`: drop leading and trailing whitespace. -/
def pyStrip (s : String) : String :=
  String.mk
    (((s.toList.dropWhile Char.isWhitespace).reverse.dropWhile Char.isWhitespace).reverse)

/-- `_apply_expression(blocks, bands, data)` (reader.py lines 37-47):
builds the binding `dict(zip(bands, data))` from asset names to stacked
bands, and for each comma-block evaluates the stripped sub-expression under
that binding with `numexpr` (the opaque `evalE`), passing the result through
`numpy.nan_to_num`.  One output band per block. -/
def _apply_expression (evalE : String → List (String × Band) → Band)
    (blocks : List String) (bands : List String) (data : List Band) : List Band :=
  let d := List.zip bands data
  blocks.map (fun bloc => nanFixBand (evalE (pyStrip bloc) d))

/-- Per-asset result of the `point` operation: one value per band. -/
abbrev PointVal := List FVal

/-- `_apply_expression` as used by `STACReader.point`, where each per-asset
datum is a flat list of band values rather than a 2-D array
(`numpy.nan_to_num` acts elementwise either way). -/
def _apply_expression_point (evalE : String → List (String × PointVal) → PointVal)
    (blocks : List String) (bands : List String) (data : List PointVal) : List PointVal :=
  let d := List.zip bands data
  blocks.map (fun bloc => (evalE (pyStrip bloc) d).map nan_to_num)

/-- `DEFAULT_VALID_TYPE` (reader.py lines 25-34).  The Python literal is a
`set`; only membership is ever used, so a list is an adequate carrier. -/
def DEFAULT_VALID_TYPE : List String :=
  [ "image/tiff; application=geotiff"
  , "image/tiff; application=geotiff; profile=cloud-optimized"
  , "image/vnd.stac.geotiff; cloud-optimized=true"
  , "image/tiff"
  , "image/x.geotiff"
  , "image/jp2"
  , "application/x-hdf5"
  , "application/x-hdf" ]

/-- A STAC asset descriptor: its location and media type
(`item["assets"][name]` with keys `"href"` and `"type"`). -/
structure AssetInfo where
  href : String
  type : String
deriving DecidableEq, Repr

/-- Python truthiness of an optional set-valued filter argument: `None` and
the empty set are both falsy (`if exclude and ...`). -/
def truthy (o : Option (List String)) : Bool :=
  match o with
  | none => false
  | some l => !l.isEmpty

/-- Membership test against an optional set (false for `None`). -/
def setContains (o : Option (List String)) (x : String) : Bool :=
  (o.getD []).contains x

/-- `_get_assets(item, include, exclude, include_asset_types,
exclude_asset_types)` (reader.py lines 67-91): walks `item["assets"]` in
insertion order and yields the names that survive the three
`continue`-guards of the source, in order.  The Python parameter names
`include`/`exclude` are shortened to `incl`/`excl` because `include` is a
Lean keyword. -/
def _get_assets (itemAssets : List (String × AssetInfo))
    (incl excl inclTypes exclTypes : Option (List String)) : List String :=
  itemAssets.filterMap (fun p =>
    let asset := p.1
    let t := p.2.type
    if truthy excl && setContains excl asset then none
    else if (truthy exclTypes && setContains exclTypes t)
        || (truthy incl && !setContains incl asset) then none
    else if (truthy inclTypes && !setContains inclTypes t)
        || (truthy incl && !setContains incl asset) then none
    else some asset)

/-- The Asset Selector's accept rule as worded by the specification: reject
if the exclude set contains the name; reject if the exclude-types set
contains the media type or the include set is given and does not contain the
name; reject if the include-types set is given and does not contain the
media type or the include set is given and does not contain the name;
otherwise accept.  "Given" is formalised as Python truthiness (provided and
non-empty). -/
def selectAccept (incl excl inclTypes exclTypes : Option (List String))
    (name ty : String) : Bool :=
  if setContains excl name then false
  else if setContains exclTypes ty
      || (truthy incl && !setContains incl name) then false
  else if (truthy inclTypes && !setContains inclTypes ty)
      || (truthy incl && !setContains incl name) then false
  else true

/-- The state of a `STACReader` (reader.py lines 94-167 plus the attributes
set by `__enter__`): the construction-time configuration, the parsed item
(its `assets` map as an association list, and its `bbox`), and the
attributes `bounds` and `assets` (the Eligible Asset List) that `__enter__`
computes.  Numeric `bbox`/`bounds` entries are carried as `FVal`; no claim
computes with them. -/
structure STACReader where
  filepath : String
  itemAssets : List (String × AssetInfo)
  bbox : List FVal
  incl : Option (List String) := none
  excl : Option (List String) := none
  inclTypes : Option (List String) := some DEFAULT_VALID_TYPE
  exclTypes : Option (List String) := none
  bounds : List FVal := []
  assets : List String := []
deriving DecidableEq, Repr

/-- `STACReader.__enter__` (reader.py lines 169-186): copies the item's
`bbox` into `bounds` and computes the Eligible Asset List with
`_get_assets`.  Document fetching is outside the model: the parsed item is
already a field of the state. -/
def STACReader.enter (r : STACReader) : STACReader :=
  { r with
    bounds := r.bbox
    assets := _get_assets r.itemAssets r.incl r.excl r.inclTypes r.exclTypes }

/-- `STACReader.__exit__` (reader.py lines 188-190): the body is `pass`;
no field is assigned, cleared or invalidated. -/
def STACReader.exit (r : STACReader) : STACReader := r

/-- The `href` of a named asset: `self.item["assets"][asset]["href"]`.
The `""` default models the (unreachable after `_get_href`'s name check on a
reader built by `enter`) `KeyError` branch of the dictionary access. -/
def STACReader.hrefOf (r : STACReader) (a : String) : String :=
  ((List.lookup a r.itemAssets).map AssetInfo.href).getD ""

/-- The validation loop of `_get_href` (reader.py lines 194-196): raises
`InvalidBandName(f"{asset} is not a valid asset name.")` at the first
requested name not in the Eligible Asset List. -/
def checkAssetNames (eligible : List String) : List String → Except String Unit
  | [] => .ok ()
  | a :: rest =>
    if a ∈ eligible then checkAssetNames eligible rest
    else .error (a ++ " is not a valid asset name.")

/-- `STACReader._get_href` (reader.py lines 192-198): validate every
requested name against the Eligible Asset List, then return the `href` of
each requested asset, in request order. -/
def STACReader._get_href (r : STACReader) (assets : List String) :
    Except String (List String) :=
  match checkAssetNames r.assets assets with
  | .error e => .error e
  | .ok _ => .ok (assets.map r.hrefOf)

/-! ## The expression parser

`_parse_expression` compiles `"|".join(sorted(self.assets, reverse=True))`
and collects `list(set(re.findall(pattern, expression)))`.  The asset names
appearing in the claims contain no regex metacharacters, so the pattern is
an ordered alternation of literals; Python's `re` tries the alternatives
left to right at each position, takes the first that matches, and after a
zero-width match advances by one character.  `"|".join` of an empty list is
the empty pattern, which is the alternation containing the single empty
literal.  `list(set(...))` has no specified order in Python; it is modelled
as `List.dedup`, and the theorems below only use membership and emptiness
of the result. -/

/-- Lexicographic comparison of char lists by code point, as Python compares
strings. -/
def charListLe : List Char → List Char → Bool
  | [], _ => true
  | _ :: _, [] => false
  | a :: as, b :: bs =>
    if a.val < b.val then true
    else if b.val < a.val then false
    else charListLe as bs

/-- `a ≤ b` on strings, by code point. -/
def strLe (a b : String) : Bool := charListLe a.toList b.toList

/-- Insert into a descending-sorted list of strings. -/
def insertDesc (x : String) : List String → List String
  | [] => [x]
  | y :: ys => if strLe y x then x :: y :: ys else y :: insertDesc x ys

/-- `sorted(names, reverse=True)`: descending lexicographic sort. -/
def sortDesc : List String → List String
  | [] => []
  | x :: xs => insertDesc x (sortDesc xs)

/-- First alternative of the pattern that matches at the current position
(Python alternation is ordered: first match wins, not longest). -/
def reFirstAlt (alts : List String) (s : List Char) : Option (List Char) :=
  alts.findSome? (fun a => if a.toList.isPrefixOf s then some a.toList else none)

/-- Scanning engine of `re.findall` for an ordered alternation of literals:
scan left to right; at each position emit the first alternative matching
there and continue after it (one character further for a zero-width match);
otherwise advance one character.  The empty pattern also matches once at the
end of the input, as in Python.  The fuel argument only bounds the number of
scanning steps so the recursion is structural; `reScan` supplies the input
length, which suffices (each step consumes at least one character), so the
out-of-fuel branch is unreachable. -/
def reScanAux (alts : List String) : Nat → List Char → List String
  | _, [] =>
    match reFirstAlt alts [] with
    | some m => [String.mk m]
    | none => []
  | 0, _ :: _ => []
  | fuel + 1, c :: rest =>
    match reFirstAlt alts (c :: rest) with
    | some m =>
      if m.isEmpty then String.mk m :: reScanAux alts fuel rest
      else String.mk m :: reScanAux alts fuel (rest.drop (m.length - 1))
    | none => reScanAux alts fuel rest

/-- `re.findall` of an ordered alternation of literals over the input. -/
def reScan (alts : List String) (s : List Char) : List String :=
  reScanAux alts s.length s

/-- `STACReader._parse_expression` (reader.py lines 200-204): build the
alternation of the known asset names sorted in reverse lexicographic order
(`"|".join` of no names is the empty pattern, i.e. the single empty
literal), find all matches in the expression, and deduplicate. -/
def STACReader._parse_expression (r : STACReader) (expression : String) :
    List String :=
  let alts := sortDesc r.assets
  let alts := if alts.isEmpty then [""] else alts
  (reScan alts expression.toList).dedup

/-! ## Merging per-asset results

`_tile`, `_part` and `_preview` (reader.py lines 215-228, 266-279, 315-328)
share the same merge step: `data = numpy.concatenate(data)` and
`mask = numpy.all(masks, axis=0).astype(numpy.uint8) * 255`.
`numpy.all(masks, axis=0)` is the elementwise conjunction of the truthiness
(non-zeroness) of the stacked masks. -/

/-- Truthiness of a mask, elementwise (`numpy.all` treats any nonzero value
as true). -/
def gridNonzero (m : Grid) : List (List Bool) :=
  m.map (fun row => row.map (fun v => v != 0))

/-- Elementwise conjunction of two boolean grids. -/
def gridAnd (a b : List (List Bool)) : List (List Bool) :=
  List.zipWith (fun ra rb => List.zipWith (fun x y => x && y) ra rb) a b

/-- `numpy.all(masks, axis=0)`: elementwise "all masks nonzero". -/
def npAllMasks : List Grid → List (List Bool)
  | [] => []
  | [m] => gridNonzero m
  | m :: ms => gridAnd (gridNonzero m) (npAllMasks ms)

/-- `.astype(numpy.uint8) * 255`: `true` becomes `1 * 255 = 255`, `false`
becomes `0`. -/
def scaleMask (b : List (List Bool)) : Grid :=
  b.map (fun row => row.map (fun v => (if v then 1 else 0) * 255))

/-- The shared merge of `_tile`/`_part`/`_preview`: concatenate the
per-asset band stacks along the band axis in input order, and combine the
per-asset masks with `numpy.all` scaled back to uint8. -/
def mergeAssets {β : Type} (results : List (List β × Grid)) : List β × Grid :=
  ((results.map Prod.fst).flatten, scaleMask (npAllMasks (results.map Prod.snd)))

/-- `STACReader._tile` (reader.py lines 215-228): one `COGReader.tile` call
per asset url (the thread pool preserves input order), then the shared
merge.  The external read (url plus the tile coordinates and pass-through
options already applied) is the opaque `readTile`. -/
def STACReader._tile (_r : STACReader) (readTile : String → List Band × Grid)
    (asset_urls : List String) : List Band × Grid :=
  mergeAssets (asset_urls.map readTile)

/-- `STACReader._part` (reader.py lines 266-279): same shape as `_tile`. -/
def STACReader._part (_r : STACReader) (readPart : String → List Band × Grid)
    (asset_urls : List String) : List Band × Grid :=
  mergeAssets (asset_urls.map readPart)

/-- `STACReader._preview` (reader.py lines 315-328): same shape as `_tile`. -/
def STACReader._preview (_r : STACReader) (readPreview : String → List Band × Grid)
    (asset_urls : List String) : List Band × Grid :=
  mergeAssets (asset_urls.map readPreview)

/-- `STACReader._point` (reader.py lines 360-368): one `COGReader.point`
call per url, results collected in input order, no merge. -/
def STACReader._point (_r : STACReader) (readPoint : String → PointVal)
    (asset_urls : List String) : List PointVal :=
  asset_urls.map readPoint

/-- The message of the usage error raised when no assets were resolved. -/
def usageError : String :=
  "assets must be passed either via expression or assets options."

/-- `STACReader.tile` (reader.py lines 230-264).  The Python prelude
`if isinstance(assets, str): assets = (assets,)` is already applied:
`assets` arrives as `none` (Python `None`) or `some` of a list (a single
name becomes a one-element list).  A truthy (non-empty) `expression`
replaces the explicit assets by the parsed ones; `if not assets` raises the
usage error for `None` and for an empty sequence; then hrefs are resolved,
the per-asset reads merged, and a truthy expression post-processed with
`_apply_expression` over `expression.split(",")`, leaving the mask
untouched.  The tile coordinates, `tilesize`, `asset_expression` and the
pass-through options are absorbed into the opaque `readTile`. -/
def STACReader.tile (r : STACReader) (assets : Option (List String))
    (expression : String)
    (evalE : String → List (String × Band) → Band)
    (readTile : String → List Band × Grid) :
    Except String (List Band × Grid) :=
  let assets := if expression ≠ "" then some (r._parse_expression expression)
                else assets
  match assets with
  | none => .error usageError
  | some assets =>
    if assets.isEmpty then .error usageError
    else
      match r._get_href assets with
      | .error e => .error e
      | .ok asset_urls =>
        let dm := r._tile readTile asset_urls
        if expression ≠ "" then
          let blocks := splitComma expression
          .ok (_apply_expression evalE blocks assets dm.1, dm.2)
        else .ok dm

/-- `STACReader.part` (reader.py lines 281-313): identical control flow to
`tile`, with `COGReader.part` as the per-asset read (the bbox, `max_size`
and pass-through options absorbed into `readPart`). -/
def STACReader.part (r : STACReader) (assets : Option (List String))
    (expression : String)
    (evalE : String → List (String × Band) → Band)
    (readPart : String → List Band × Grid) :
    Except String (List Band × Grid) :=
  let assets := if expression ≠ "" then some (r._parse_expression expression)
                else assets
  match assets with
  | none => .error usageError
  | some assets =>
    if assets.isEmpty then .error usageError
    else
      match r._get_href assets with
      | .error e => .error e
      | .ok asset_urls =>
        let dm := r._part readPart asset_urls
        if expression ≠ "" then
          let blocks := splitComma expression
          .ok (_apply_expression evalE blocks assets dm.1, dm.2)
        else .ok dm

/-- `STACReader.preview` (reader.py lines 330-358): identical control flow
to `tile`, with `COGReader.preview` as the per-asset read. -/
def STACReader.preview (r : STACReader) (assets : Option (List String))
    (expression : String)
    (evalE : String → List (String × Band) → Band)
    (readPreview : String → List Band × Grid) :
    Except String (List Band × Grid) :=
  let assets := if expression ≠ "" then some (r._parse_expression expression)
                else assets
  match assets with
  | none => .error usageError
  | some assets =>
    if assets.isEmpty then .error usageError
    else
      match r._get_href assets with
      | .error e => .error e
      | .ok asset_urls =>
        let dm := r._preview readPreview asset_urls
        if expression ≠ "" then
          let blocks := splitComma expression
          .ok (_apply_expression evalE blocks assets dm.1, dm.2)
        else .ok dm

/-- `STACReader.point` (reader.py lines 370-400): same asset resolution as
`tile`; the per-asset values are collected in input order, and a truthy
expression is applied over the flat per-asset value lists. -/
def STACReader.point (r : STACReader) (assets : Option (List String))
    (expression : String)
    (evalE : String → List (String × PointVal) → PointVal)
    (readPoint : String → PointVal) :
    Except String (List PointVal) :=
  let assets := if expression ≠ "" then some (r._parse_expression expression)
                else assets
  match assets with
  | none => .error usageError
  | some assets =>
    if assets.isEmpty then .error usageError
    else
      match r._get_href assets with
      | .error e => .error e
      | .ok asset_urls =>
        let pts := r._point readPoint asset_urls
        if expression ≠ "" then
          let blocks := splitComma expression
          .ok (_apply_expression_point evalE blocks assets pts)
        else .ok pts

/-- `STACReader.stats` (reader.py lines 402-426): resolve hrefs (raising on
an unknown name, with no emptiness check), fan out `COGReader.stats` (the
percentiles and pass-through options absorbed into `readStats`), and return
the insertion-ordered dictionary `{asset: stats[ix] for ix, asset in
enumerate(assets)}`, modelled as the association list zipping the requested
names with the per-asset results. -/
def STACReader.stats {σ : Type} (r : STACReader) (assets : List String)
    (readStats : String → σ) : Except String (List (String × σ)) :=
  match r._get_href assets with
  | .error e => .error e
  | .ok asset_urls => .ok (List.zip assets (asset_urls.map readStats))

/-- `STACReader.info` (reader.py lines 428-446): same shape as `stats` with
`COGReader.info` as the per-asset read. -/
def STACReader.info {σ : Type} (r : STACReader) (assets : List String)
    (readInfo : String → σ) : Except String (List (String × σ)) :=
  match r._get_href assets with
  | .error e => .error e
  | .ok asset_urls => .ok (List.zip assets (asset_urls.map readInfo))

/-- `STACReader.metadata` (reader.py lines 448-472): same shape as `stats`
with `COGReader.metadata` as the per-asset read. -/
def STACReader.metadata {σ : Type} (r : STACReader) (assets : List String)
    (readMeta : String → σ) : Except String (List (String × σ)) :=
  match r._get_href assets with
  | .error e => .error e
  | .ok asset_urls => .ok (List.zip assets (asset_urls.map readMeta))

/-- The first requested name that is not eligible, if any (the name whose
`InvalidBandName` error `_get_href` raises). -/
def firstInvalid (eligible : List String) (assets : List String) : Option String :=
  assets.find? (fun a => !(eligible.contains a))

/-- The mask value at row `i`, column `j` (out-of-range reads default to
`0`, which conveniently matches "invalid"). -/
def maskCell (g : Grid) (i j : Nat) : Nat := (g.getD i []).getD j 0

/-- The boolean-grid value at row `i`, column `j` (out-of-range reads
default to `false`). -/
def boolCell (b : List (List Bool)) (i j : Nat) : Bool := (b.getD i []).getD j false

/-! ## Concrete fixtures used by witnesses -/

/-- A small catalog asset map: two rasters and one non-raster thumbnail
(the thumbnail's `image/png` is not in `DEFAULT_VALID_TYPE`). -/
def demoItemAssets : List (String × AssetInfo) :=
  [ ("B01", { href := "https://example.com/B01.tif", type := "image/tiff" })
  , ("B02", { href := "https://example.com/B02.tif", type := "image/tiff" })
  , ("thumbnail", { href := "https://example.com/thumb.png", type := "image/png" }) ]

/-- A reader opened on `demoItemAssets` with the default filters: the
Eligible Asset List is `["B01", "B02"]` and `"thumbnail"` is filtered out. -/
def demoReader : STACReader :=
  STACReader.enter { filepath := "item.json", itemAssets := demoItemAssets, bbox := [] }

/-- A reader opened on an item with no assets: the Eligible Asset List is
empty. -/
def emptyAssetsReader : STACReader :=
  STACReader.enter { filepath := "item.json", itemAssets := [], bbox := [] }

/-- A reader whose known asset names are `"B1"` and `"B10"` (the
overlapping-name fixture of the specification). -/
def bReader : STACReader :=
  STACReader.enter
    { filepath := "item.json"
    , itemAssets :=
        [ ("B1", { href := "https://example.com/B1.tif", type := "image/tiff" })
        , ("B10", { href := "https://example.com/B10.tif", type := "image/tiff" }) ]
    , bbox := [] }

/-! ## Helper lemmas -/

theorem checkAssetNames_ok_of (eligible : List String) :
    ∀ as : List String, (∀ a ∈ as, a ∈ eligible) → checkAssetNames eligible as = .ok () := by
  intro as
  induction as with
  | nil => intro _; rfl
  | cons a rest ih =>
    intro h
    have ha : a ∈ eligible := h a (by simp)
    simp [checkAssetNames, ha, ih (fun x hx => h x (by simp [hx]))]

theorem checkAssetNames_error_iff (eligible : List String) (as : List String) :
    (∃ e, checkAssetNames eligible as = .error e) ↔ ∃ a ∈ as, a ∉ eligible := by
  induction as with
  | nil => simp [checkAssetNames]
  | cons a rest ih =>
    by_cases ha : a ∈ eligible
    · simpa [checkAssetNames, ha] using ih
    · simp [checkAssetNames, ha]

theorem checkAssetNames_firstInvalid (eligible : List String) (as : List String)
    (b : String) (h : firstInvalid eligible as = some b) :
    checkAssetNames eligible as = .error (b ++ " is not a valid asset name.") := by
  induction as with
  | nil => simp [firstInvalid] at h
  | cons a rest ih =>
    by_cases ha : a ∈ eligible
    · have hc : eligible.contains a = true := by simpa using ha
      simp only [firstInvalid, List.find?] at h
      rw [hc] at h
      simp only [Bool.not_true] at h
      exact (by simpa [checkAssetNames, ha] using ih (by simpa [firstInvalid] using h))
    · have hc : eligible.contains a = false := by simpa using ha
      simp only [firstInvalid, List.find?] at h
      rw [hc] at h
      simp only [Bool.not_false, Option.some.injEq] at h
      subst h
      simp [checkAssetNames, ha]

theorem zip_map_self {α β : Type} (l : List α) (f : α → β) :
    List.zip l (l.map f) = l.map (fun a => (a, f a)) := by
  induction l with
  | nil => rfl
  | cons a rest ih => simp [ih]

theorem truthy_and_setContains (o : Option (List String)) (x : String) :
    (truthy o && setContains o x) = setContains o x := by
  cases o with
  | none => rfl
  | some l => cases l with
    | nil => rfl
    | cons a as => simp [truthy, setContains]

theorem filterMap_if_eq_filter_map {α β : Type} (f : α → β) (c : α → Bool) (l : List α) :
    l.filterMap (fun a => if c a then some (f a) else none) = (l.filter c).map f := by
  induction l with
  | nil => rfl
  | cons a rest ih => cases h : c a <;> simp [List.filterMap_cons, List.filter_cons, h, ih]

theorem reScanAux_empty_pattern :
    ∀ (fuel : Nat) (l : List Char), l.length ≤ fuel →
      reScanAux [""] fuel l = List.replicate (l.length + 1) "" := by
  intro fuel
  induction fuel with
  | zero =>
    intro l hl
    cases l with
    | nil => rfl
    | cons c rest => simp at hl
  | succ n ih =>
    intro l hl
    cases l with
    | nil => rfl
    | cons c rest =>
      have hfa : reFirstAlt [""] (c :: rest) = some [] := rfl
      have hr : rest.length ≤ n := by simpa using hl
      simp [reScanAux, hfa, ih rest hr, List.replicate_succ]

theorem dedup_replicate_succ {α : Type} [DecidableEq α] (a : α) :
    ∀ n : Nat, (List.replicate (n + 1) a).dedup = [a] := by
  intro n
  induction n with
  | zero => simp
  | succ k ih =>
    rw [List.replicate_succ, List.dedup_cons_of_mem (by simp [List.mem_replicate]), ih]

theorem if_chain_eq {β : Type} (g1 g2 g3 : Bool) (x : β) :
    (if g1 then none else if g2 then none else if g3 then none else some x)
      = if (if g1 then false else if g2 then false else if g3 then false else true)
        then some x else none := by
  cases g1 <;> cases g2 <;> cases g3 <;> simp

theorem zipWith_getElem? {α β γ : Type} (f : α → β → γ) :
    ∀ (as : List α) (bs : List β) (i : Nat),
      (List.zipWith f as bs)[i]? = (as[i]?).bind (fun a => (bs[i]?).map (f a)) := by
  intro as
  induction as with
  | nil => intro bs i; cases bs <;> cases i <;> simp
  | cons a as ih =>
    intro bs i
    cases bs with
    | nil => cases i <;> simp
    | cons b bs =>
      cases i with
      | zero => simp
      | succ j => simpa using ih bs j

theorem getD_zipWith_and (ra rb : List Bool) (j : Nat) :
    (List.zipWith (fun x y => x && y) ra rb).getD j false
      = (ra.getD j false && rb.getD j false) := by
  simp only [List.getD_eq_getElem?_getD, zipWith_getElem?]
  cases ra[j]? <;> cases rb[j]? <;> simp

theorem boolCell_gridNonzero (m : Grid) (i j : Nat) :
    boolCell (gridNonzero m) i j = (maskCell m i j != 0) := by
  unfold boolCell gridNonzero maskCell
  simp only [List.getD_eq_getElem?_getD, List.getElem?_map]
  cases m[i]? with
  | none => simp
  | some row =>
    simp only [Option.map_some', Option.getD_some, List.getElem?_map]
    cases row[j]? <;> simp

theorem boolCell_gridAnd (a b : List (List Bool)) (i j : Nat) :
    boolCell (gridAnd a b) i j = (boolCell a i j && boolCell b i j) := by
  unfold boolCell gridAnd
  simp only [List.getD_eq_getElem?_getD, zipWith_getElem?]
  cases a[i]? with
  | none => simp
  | some ra =>
    cases b[i]? with
    | none => simp
    | some rb =>
      simp only [Option.map_some', Option.bind_some, Option.getD_some]
      simpa only [List.getD_eq_getElem?_getD] using getD_zipWith_and ra rb j

theorem boolCell_npAllMasks : ∀ ms : List Grid, ms ≠ [] → ∀ i j : Nat,
    boolCell (npAllMasks ms) i j = ms.all (fun m => maskCell m i j != 0) := by
  intro ms
  induction ms with
  | nil => intro h; exact absurd rfl h
  | cons m rest ih =>
    intro _ i j
    cases rest with
    | nil => simp [npAllMasks, boolCell_gridNonzero]
    | cons m2 rest2 =>
      show boolCell (gridAnd (gridNonzero m) (npAllMasks (m2 :: rest2))) i j = _
      rw [boolCell_gridAnd, boolCell_gridNonzero, ih (by simp) i j]
      simp [List.all_cons]

theorem scale_cell_aux (o : Option Bool) :
    (o.map (fun v => (if v then 1 else 0) * 255)).getD 0
      = if o.getD false then 255 else 0 := by
  cases o with
  | none => rfl
  | some v => cases v <;> rfl

theorem maskCell_scaleMask (b : List (List Bool)) (i j : Nat) :
    maskCell (scaleMask b) i j = if boolCell b i j then 255 else 0 := by
  unfold maskCell scaleMask boolCell
  simp only [List.getD_eq_getElem?_getD, List.getElem?_map]
  cases b[i]? with
  | none => simp
  | some row =>
    simp only [Option.map_some', Option.getD_some, List.getElem?_map]
    exact scale_cell_aux row[j]?

theorem gridNonzero_shape (m : Grid) (C : Nat)
    (h2 : ∀ row ∈ m, row.length = C) :
    (gridNonzero m).length = m.length ∧ ∀ row ∈ gridNonzero m, row.length = C := by
  constructor
  · simp [gridNonzero]
  · intro row hrow
    simp only [gridNonzero, List.mem_map] at hrow
    obtain ⟨row0, hrow0, rfl⟩ := hrow
    simpa using h2 row0 hrow0

theorem gridAnd_row_length (C : Nat) : ∀ a b : List (List Bool),
    (∀ row ∈ a, row.length = C) → (∀ row ∈ b, row.length = C) →
    ∀ row ∈ gridAnd a b, row.length = C := by
  intro a
  induction a with
  | nil => intro b _ _ row hrow; simp [gridAnd] at hrow
  | cons ra a ih =>
    intro b hA hB row hrow
    cases b with
    | nil => simp [gridAnd] at hrow
    | cons rb b =>
      simp only [gridAnd, List.zipWith_cons_cons, List.mem_cons] at hrow
      rcases hrow with rfl | hrow
      · rw [List.length_zipWith, hA ra (by simp), hB rb (by simp)]
        simp
      · exact ih b (fun r hr => hA r (by simp [hr])) (fun r hr => hB r (by simp [hr]))
          row hrow

theorem npAllMasks_shape (R C : Nat) : ∀ ms : List Grid, ms ≠ [] →
    (∀ m ∈ ms, m.length = R ∧ ∀ row ∈ m, row.length = C) →
    (npAllMasks ms).length = R ∧ ∀ row ∈ npAllMasks ms, row.length = C := by
  intro ms
  induction ms with
  | nil => intro h; exact absurd rfl h
  | cons m rest ih =>
    intro _ hsh
    have hm := hsh m (by simp)
    cases rest with
    | nil =>
      have h := gridNonzero_shape m C hm.2
      exact ⟨by simpa [npAllMasks, hm.1] using h.1, by simpa [npAllMasks] using h.2⟩
    | cons m2 rest2 =>
      have hrest := ih (by simp) (fun g hg => hsh g (by simp [hg]))
      have hnz := gridNonzero_shape m C hm.2
      constructor
      · show (gridAnd (gridNonzero m) (npAllMasks (m2 :: rest2))).length = R
        rw [gridAnd, List.length_zipWith, hnz.1, hm.1, hrest.1]
        simp
      · show ∀ row ∈ gridAnd (gridNonzero m) (npAllMasks (m2 :: rest2)), row.length = C
        exact gridAnd_row_length C _ _ hnz.2 hrest.2

theorem all_map_eq {α β : Type} (f : α → β) (p : β → Bool) (l : List α) :
    (l.map f).all p = l.all (fun a => p (f a)) := by
  induction l with
  | nil => rfl
  | cons a rest ih => simp [ih]

/-! ## Claim theorems -/

/-- C10: the close transition (`__exit__`) leaves every field of the reader
unchanged — the item, the bounds and the Eligible Asset List survive — so
every operation invoked after the context manager exits behaves identically
to the same operation invoked while open; the Closed state enforces
nothing. -/
theorem exit_frame_effect :
    ∀ r : STACReader,
      r.exit = r ∧
      r.exit.itemAssets = r.itemAssets ∧
      r.exit.bounds = r.bounds ∧
      r.exit.assets = r.assets ∧
      (∀ assets expression evalE readTile,
        r.exit.tile assets expression evalE readTile
          = r.tile assets expression evalE readTile) ∧
      (∀ assets expression evalE readPart,
        r.exit.part assets expression evalE readPart
          = r.part assets expression evalE readPart) ∧
      (∀ assets expression evalE readPreview,
        r.exit.preview assets expression evalE readPreview
          = r.preview assets expression evalE readPreview) ∧
      (∀ assets expression evalP readPoint,
        r.exit.point assets expression evalP readPoint
          = r.point assets expression evalP readPoint) ∧
      (∀ (σ : Type) (assets : List String) (readStats : String → σ),
        r.exit.stats assets readStats = r.stats assets readStats) ∧
      (∀ (σ : Type) (assets : List String) (readInfo : String → σ),
        r.exit.info assets readInfo = r.info assets readInfo) ∧
      (∀ (σ : Type) (assets : List String) (readMeta : String → σ),
        r.exit.metadata assets readMeta = r.metadata assets readMeta) ∧
      (∀ assets, r.exit._get_href assets = r._get_href assets) ∧
      (∀ expression,
        r.exit._parse_expression expression = r._parse_expression expression) := by
  intro r
  refine ⟨rfl, rfl, rfl, rfl, ?_, ?_, ?_, ?_, ?_, ?_, ?_, ?_, ?_⟩ <;> intros <;> rfl

/-- C2: `_get_href` raises the "is not a valid asset name" error exactly
when some requested name is missing from the Eligible Asset List (so a name
present in the raw catalog but filtered out at open is rejected just the
same); the message names the first offending request; on success it returns
one href per requested name, in request order; and through `tile`, the
error surfaces unchanged for every possible per-asset read function, i.e.
before any read happens. -/
theorem get_href_spec (r : STACReader) (assets : List String) :
    ((∃ a ∈ assets, a ∉ r.assets) ↔ ∃ e, r._get_href assets = .error e) ∧
    (∀ b, firstInvalid r.assets assets = some b →
      r._get_href assets = .error (b ++ " is not a valid asset name.")) ∧
    ((∀ a ∈ assets, a ∈ r.assets) →
      r._get_href assets = .ok (assets.map r.hrefOf)) ∧
    (∀ (evalE : String → List (String × Band) → Band)
       (readTile : String → List Band × Grid) (e : String),
      r._get_href assets = .error e → assets ≠ [] →
      r.tile (some assets) "" evalE readTile = .error e) := by
  refine ⟨?_, ?_, ?_, ?_⟩
  · rw [← checkAssetNames_error_iff r.assets assets]
    constructor
    · rintro ⟨e, he⟩
      exact ⟨e, by simp [STACReader._get_href, he]⟩
    · rintro ⟨e, he⟩
      unfold STACReader._get_href at he
      rcases hc : checkAssetNames r.assets assets with e₂ | u
      · exact ⟨e₂, rfl⟩
      · rw [hc] at he; cases he
  · intro b hb
    simp [STACReader._get_href, checkAssetNames_firstInvalid r.assets assets b hb]
  · intro h
    simp [STACReader._get_href, checkAssetNames_ok_of r.assets assets h]
  · intro evalE readTile e he hne
    simp [STACReader.tile, List.isEmpty_iff, hne, he]

/-- Witness for C2 on `demoReader`: requesting `"thumbnail"` — present in
the raw catalog but filtered out — errors with its name in the message,
while requesting the two eligible rasters returns their hrefs in request
order, and the error reaches `tile` untouched by the read function. -/
theorem get_href_spec_witness :
    (∃ e, demoReader._get_href ["thumbnail"] = .error e) ∧
    demoReader._get_href ["thumbnail"]
      = .error "thumbnail is not a valid asset name." ∧
    demoReader._get_href ["B02", "B01"]
      = .ok ["https://example.com/B02.tif", "https://example.com/B01.tif"] ∧
    demoReader.tile (some ["thumbnail"]) "" (fun _ _ => []) (fun _ => ([], []))
      = .error "thumbnail is not a valid asset name." := by
  refine ⟨?_, ?_, ?_, ?_⟩
  · exact (get_href_spec demoReader ["thumbnail"]).1.mp ⟨"thumbnail", by decide, by decide⟩
  · exact (get_href_spec demoReader ["thumbnail"]).2.1 "thumbnail" (by decide)
  · exact ((get_href_spec demoReader ["B02", "B01"]).2.2.1 (by decide)).trans
      (congrArg Except.ok (by decide))
  · exact (get_href_spec demoReader ["thumbnail"]).2.2.2 (fun _ _ => []) (fun _ => ([], []))
      "thumbnail is not a valid asset name."
      ((get_href_spec demoReader ["thumbnail"]).2.1 "thumbnail" (by decide)) (by decide)

/-- C9: `stats`, `info` and `metadata` perform no emptiness check — called
with an empty request they return the empty mapping without error — and in
general (all requested names eligible) they return the mapping pairing each
requested name, in request order, with that asset's own per-asset result;
no stacking or mask combination is applied. -/
theorem mapping_ops_spec {σ τ υ : Type} (r : STACReader) (assets : List String)
    (h : ∀ a ∈ assets, a ∈ r.assets)
    (readStats : String → σ) (readInfo : String → τ) (readMeta : String → υ) :
    r.stats [] readStats = .ok [] ∧
    r.info [] readInfo = .ok [] ∧
    r.metadata [] readMeta = .ok [] ∧
    r.stats assets readStats
      = .ok (assets.map (fun a => (a, readStats (r.hrefOf a)))) ∧
    r.info assets readInfo
      = .ok (assets.map (fun a => (a, readInfo (r.hrefOf a)))) ∧
    r.metadata assets readMeta
      = .ok (assets.map (fun a => (a, readMeta (r.hrefOf a)))) := by
  have hok : r._get_href assets = .ok (assets.map r.hrefOf) := by
    simp [STACReader._get_href, checkAssetNames_ok_of r.assets assets h]
  refine ⟨rfl, rfl, rfl, ?_, ?_, ?_⟩ <;>
    simp [STACReader.stats, STACReader.info, STACReader.metadata, hok,
      List.map_map, zip_map_self, Function.comp]

/-- Witness for C9 on `demoReader`: the empty request yields the empty
mapping, and a two-asset request (in non-catalog order) yields the
name-keyed per-asset results in request order. -/
theorem mapping_ops_spec_witness :
    demoReader.stats [] (fun s => s) = .ok [] ∧
    demoReader.stats ["B02", "B01"] (fun s => s)
      = .ok [("B02", "https://example.com/B02.tif"), ("B01", "https://example.com/B01.tif")] ∧
    demoReader.info ["B01"] (fun s => s.length)
      = .ok [("B01", 27)] := by
  refine ⟨?_, ?_, ?_⟩
  · exact (mapping_ops_spec demoReader [] (by simp) (fun s => s) (fun s => s) (fun s => s)).1
  · exact ((mapping_ops_spec demoReader ["B02", "B01"] (by decide)
      (fun s => s) (fun s => s) (fun s => s)).2.2.2.1).trans
      (congrArg Except.ok (by decide))
  · exact ((mapping_ops_spec demoReader ["B01"] (by decide)
      (fun s => s.length) (fun s => s.length) (fun s => s.length)).2.2.2.2.1).trans
      (congrArg Except.ok (by decide))

/-- C8: each pixel-producing operation (`tile`, `part`, `preview`, `point`)
raises the usage error "assets must be passed either via expression or
assets options." when neither an asset list nor an expression is supplied
(explicit `None` or an empty sequence), or when a supplied expression
parses to an empty asset set — and it does so for every possible read
function, i.e. before any resolution or per-asset read. -/
theorem no_assets_usage_error (r : STACReader) (assets : Option (List String))
    (expression : String)
    (h : (expression = "" ∧ (assets = none ∨ assets = some [])) ∨
         (expression ≠ "" ∧ r._parse_expression expression = [])) :
    ∀ (evalE : String → List (String × Band) → Band)
      (evalP : String → List (String × PointVal) → PointVal)
      (readA readB readC : String → List Band × Grid) (readP : String → PointVal),
      r.tile assets expression evalE readA = .error usageError ∧
      r.part assets expression evalE readB = .error usageError ∧
      r.preview assets expression evalE readC = .error usageError ∧
      r.point assets expression evalP readP = .error usageError := by
  intro evalE evalP readA readB readC readP
  rcases h with ⟨he, hao⟩ | ⟨hne, hp⟩
  · subst he
    rcases hao with h1 | h1 <;> subst h1 <;>
      exact ⟨rfl, rfl, rfl, rfl⟩
  · refine ⟨?_, ?_, ?_, ?_⟩ <;>
      simp [STACReader.tile, STACReader.part, STACReader.preview, STACReader.point,
        hne, hp]

/-- Witness for C8 on `demoReader`: no assets and no expression. -/
theorem no_assets_usage_error_witness :
    demoReader.tile none "" (fun _ _ => []) (fun _ => ([], [])) = .error usageError ∧
    demoReader.part none "" (fun _ _ => []) (fun _ => ([], [])) = .error usageError ∧
    demoReader.preview none "" (fun _ _ => []) (fun _ => ([], [])) = .error usageError ∧
    demoReader.point none "" (fun _ _ => []) (fun _ => []) = .error usageError :=
  no_assets_usage_error demoReader none "" (Or.inl ⟨rfl, Or.inl rfl⟩)
    (fun _ _ => []) (fun _ _ => []) (fun _ => ([], [])) (fun _ => ([], []))
    (fun _ => ([], [])) (fun _ => [])

/-- C3: for every catalog item (with unique asset names) and every filter
combination, the Asset Selector returns exactly the names accepted by the
specification's reject-rules-in-sequence (`selectAccept`, with "given"
formalised as Python truthiness: provided and non-empty), in the asset
map's iteration order (the output is a sublist of the key sequence) and
without duplicates.  The selector returns a plain list — an empty result is
a value, not an error. -/
theorem get_assets_spec (itemAssets : List (String × AssetInfo))
    (incl excl inclTypes exclTypes : Option (List String))
    (hkeys : (itemAssets.map Prod.fst).Nodup) :
    _get_assets itemAssets incl excl inclTypes exclTypes
      = (itemAssets.filter
          (fun p => selectAccept incl excl inclTypes exclTypes p.1 p.2.type)).map Prod.fst ∧
    List.Sublist (_get_assets itemAssets incl excl inclTypes exclTypes)
      (itemAssets.map Prod.fst) ∧
    (_get_assets itemAssets incl excl inclTypes exclTypes).Nodup := by
  have heq : _get_assets itemAssets incl excl inclTypes exclTypes
      = (itemAssets.filter
          (fun p => selectAccept incl excl inclTypes exclTypes p.1 p.2.type)).map Prod.fst := by
    rw [← filterMap_if_eq_filter_map]
    unfold _get_assets
    congr 1
    funext p
    dsimp only
    simp only [truthy_and_setContains, selectAccept]
    exact if_chain_eq _ _ _ _
  have hsub : List.Sublist (_get_assets itemAssets incl excl inclTypes exclTypes)
      (itemAssets.map Prod.fst) := by
    rw [heq]
    exact (List.filter_sublist _).map _
  exact ⟨heq, hsub, List.Nodup.sublist hsub hkeys⟩

/-- Witness for C3: on the demo item with an include set naming a raster
and the (type-filtered) thumbnail, only the raster survives, and the result
is duplicate-free. -/
theorem get_assets_spec_witness :
    _get_assets demoItemAssets (some ["B01", "thumbnail"]) none
      (some DEFAULT_VALID_TYPE) none = ["B01"] ∧
    (_get_assets demoItemAssets (some ["B01", "thumbnail"]) none
      (some DEFAULT_VALID_TYPE) none).Nodup := by
  have h := get_assets_spec demoItemAssets (some ["B01", "thumbnail"]) none
    (some DEFAULT_VALID_TYPE) none (by decide)
  exact ⟨h.1.trans (by decide), h.2.2⟩

/-- C4: when the known asset names are `"B1"` and `"B10"`, parsing the
expression `"B10/B1"` returns exactly the set `{"B1", "B10"}` — the
alternation is built from the names sorted in reverse lexicographic order,
so `"B10"` is tried before `"B1"` and the longer name is never mis-split. -/
theorem parse_expression_overlapping_names :
    bReader.assets = ["B1", "B10"] ∧
    sortDesc bReader.assets = ["B10", "B1"] ∧
    (∀ a : String, a ∈ bReader._parse_expression "B10/B1" ↔ (a = "B1" ∨ a = "B10")) := by
  refine ⟨by decide, by decide, ?_⟩
  have h : bReader._parse_expression "B10/B1" = ["B10", "B1"] := by decide
  intro a
  rw [h]
  simp [or_comm]

/-- C5 counterexample: with an empty set of known asset names, parsing the
expression `"x"` does not return the empty list.  `"|".join([])` is the
empty pattern, which matches the empty string at every position, so the
parser returns the singleton list containing the empty string. -/
theorem parse_expression_empty_names_cex :
    emptyAssetsReader.assets = [] ∧
    emptyAssetsReader._parse_expression "x" ≠ [] ∧
    emptyAssetsReader._parse_expression "x" = [""] := by
  refine ⟨by decide, ?_, by decide⟩
  intro h
  exact absurd ((by decide : emptyAssetsReader._parse_expression "x" = [""]) ▸ h)
    (by decide)

/-- C5 amended: for every expression string, when the set of known asset
names is empty the Expression Parser returns the singleton list containing
the empty string (the degenerate pattern is the empty pattern, which
matches the zero-width string at every position; deduplication collapses
the matches to one empty name).  It does not return the empty list. -/
theorem parse_expression_empty_names (r : STACReader) (e : String)
    (h : r.assets = []) :
    r._parse_expression e = [""] ∧ r._parse_expression e ≠ [] := by
  have heq : r._parse_expression e = [""] := by
    unfold STACReader._parse_expression
    rw [h]
    show (reScan [""] e.toList).dedup = [""]
    rw [reScan, reScanAux_empty_pattern e.toList.length e.toList le_rfl,
      dedup_replicate_succ]
  exact ⟨heq, by rw [heq]; exact (by simp)⟩

/-- Witness for C5: the amended statement at the concrete reader with no
eligible assets and the expression `"q+r"`. -/
theorem parse_expression_empty_names_witness :
    emptyAssetsReader.assets = [] ∧
    emptyAssetsReader._parse_expression "q+r" = [""] :=
  ⟨by decide, (parse_expression_empty_names emptyAssetsReader "q+r" (by decide)).1⟩

/-- C1: for every non-empty list of per-asset (band-stack, mask) results
with uniformly shaped masks, the merged result concatenates the bands in
input order, so its band count is the sum of the per-asset band counts; the
merged mask has the common spatial shape and equals, at every coordinate,
the logical AND of the per-asset masks scaled so that valid is `255` and
invalid is `0`; in particular a pixel any one asset marks invalid is
invalid in the merged mask. -/
theorem merge_spec {β : Type} (rs : List (List β × Grid)) (R C : Nat)
    (hne : rs ≠ [])
    (hsh : ∀ p ∈ rs, p.2.length = R ∧ ∀ row ∈ p.2, row.length = C) :
    (mergeAssets rs).1 = (rs.map Prod.fst).flatten ∧
    (mergeAssets rs).1.length = (rs.map (fun p => p.1.length)).sum ∧
    (mergeAssets rs).2.length = R ∧
    (∀ row ∈ (mergeAssets rs).2, row.length = C) ∧
    (∀ i j : Nat, maskCell (mergeAssets rs).2 i j
      = if rs.all (fun p => maskCell p.2 i j != 0) then 255 else 0) ∧
    (∀ i j : Nat, (∃ p ∈ rs, maskCell p.2 i j = 0) →
      maskCell (mergeAssets rs).2 i j = 0) := by
  have hmne : rs.map Prod.snd ≠ [] := by
    simpa [List.map_eq_nil_iff] using hne
  have hmsh : ∀ m ∈ rs.map Prod.snd, m.length = R ∧ ∀ row ∈ m, row.length = C := by
    intro m hm
    obtain ⟨p, hp, rfl⟩ := List.mem_map.mp hm
    exact hsh p hp
  have hshape := npAllMasks_shape R C (rs.map Prod.snd) hmne hmsh
  have hcell : ∀ i j : Nat, maskCell (mergeAssets rs).2 i j
      = if rs.all (fun p => maskCell p.2 i j != 0) then 255 else 0 := by
    intro i j
    show maskCell (scaleMask (npAllMasks (rs.map Prod.snd))) i j = _
    rw [maskCell_scaleMask, boolCell_npAllMasks (rs.map Prod.snd) hmne i j]
    rw [all_map_eq Prod.snd (fun m => maskCell m i j != 0) rs]
  refine ⟨rfl, ?_, ?_, ?_, hcell, ?_⟩
  · show ((rs.map Prod.fst).flatten).length = _
    rw [List.length_flatten, List.map_map]
    rfl
  · show (scaleMask (npAllMasks (rs.map Prod.snd))).length = R
    simpa [scaleMask] using hshape.1
  · intro row hrow
    simp only [mergeAssets, scaleMask, List.mem_map] at hrow
    obtain ⟨row0, hrow0, rfl⟩ := hrow
    simpa using hshape.2 row0 hrow0
  · intro i j hzero
    rw [hcell i j]
    have : rs.all (fun p => maskCell p.2 i j != 0) = false := by
      obtain ⟨p, hp, hz⟩ := hzero
      simp only [List.all_eq_false]
      exact ⟨p, hp, by simp [hz]⟩
    simp [this]

/-- Witness for C1: two one-band assets over a 1-by-2 grid, the first
invalid in the second column — the merged stack has the two bands and the
merged mask zeroes that column while keeping the first at `255`. -/
theorem merge_spec_witness :
    (mergeAssets [([10], [[255, 0]]), ([20, 30], [[255, 255]])]
      : List Nat × Grid).1.length = 3 ∧
    maskCell (mergeAssets ([([10], [[255, 0]]), ([20, 30], [[255, 255]])]
      : List (List Nat × Grid))).2 0 1 = 0 ∧
    maskCell (mergeAssets ([([10], [[255, 0]]), ([20, 30], [[255, 255]])]
      : List (List Nat × Grid))).2 0 0 = 255 := by
  have h := merge_spec ([([10], [[255, 0]]), ([20, 30], [[255, 255]])]
    : List (List Nat × Grid)) 1 2 (by decide) (by decide)
  refine ⟨h.2.1.trans (by decide), ?_, ?_⟩
  · exact h.2.2.2.2.2 0 1 ⟨([10], [[255, 0]]), by decide, by decide⟩
  · exact (h.2.2.2.2.1 0 0).trans (by decide)

/-- C7 counterexample: an evaluation producing `+Inf` is not replaced by
zero — `numpy.nan_to_num`'s default substitutes the largest finite double
`FLOAT_MAX`, which is nonzero. -/
theorem apply_expression_inf_cex :
    _apply_expression (fun _ _ => [[FVal.posInf]]) ["B01/B02"] ["B01"]
        [[[FVal.finite 1]]]
      = [[[FVal.finite FLOAT_MAX]]] ∧
    FLOAT_MAX ≠ 0 ∧
    _apply_expression (fun _ _ => [[FVal.posInf]]) ["B01/B02"] ["B01"]
        [[[FVal.finite 1]]]
      ≠ [[[FVal.finite 0]]] := by
  have hne : FLOAT_MAX ≠ 0 := by unfold FLOAT_MAX; norm_num
  refine ⟨rfl, hne, ?_⟩
  intro h
  have h2 : ([[[FVal.finite FLOAT_MAX]]] : List Band) = [[[FVal.finite 0]]] :=
    (rfl : _apply_expression (fun _ _ => [[FVal.posInf]]) ["B01/B02"] ["B01"]
      [[[FVal.finite 1]]] = [[[FVal.finite FLOAT_MAX]]]).symm.trans h
  simp only [List.cons.injEq, FVal.finite.injEq, and_true] at h2
  exact hne h2

/-- C7 amended: in expression application every NaN produced by evaluating
a sub-expression is replaced by zero, `+Inf` by the largest finite double
`FLOAT_MAX`, `-Inf` by `-FLOAT_MAX`, and finite values are returned
unchanged; consequently every value in the returned array is finite. -/
theorem apply_expression_nan_to_num
    (evalE : String → List (String × Band) → Band)
    (blocks bands : List String) (data : List Band) :
    (∀ band ∈ _apply_expression evalE blocks bands data,
      ∀ row ∈ band, ∀ v ∈ row, v.isFinite = true) ∧
    (∀ band ∈ _apply_expression evalE blocks bands data,
      ∃ bloc ∈ blocks,
        band = nanFixBand (evalE (pyStrip bloc) (List.zip bands data))) ∧
    nan_to_num .nan = .finite 0 ∧
    (∀ x : Int, nan_to_num (.finite x) = .finite x) ∧
    nan_to_num .posInf = .finite FLOAT_MAX ∧
    nan_to_num .negInf = .finite (-FLOAT_MAX) := by
  have hfin : ∀ u : FVal, (nan_to_num u).isFinite = true := by
    intro u; cases u <;> rfl
  refine ⟨?_, ?_, rfl, fun x => rfl, rfl, rfl⟩
  · intro band hband row hrow v hv
    simp only [_apply_expression, List.mem_map] at hband
    obtain ⟨bloc, hbloc, rfl⟩ := hband
    simp only [nanFixBand, List.mem_map] at hrow
    obtain ⟨row0, hrow0, rfl⟩ := hrow
    simp only [List.mem_map] at hv
    obtain ⟨u, hu, rfl⟩ := hv
    exact hfin u
  · intro band hband
    simp only [_apply_expression, List.mem_map] at hband
    obtain ⟨bloc, hbloc, rfl⟩ := hband
    exact ⟨bloc, hbloc, rfl⟩

/-- C6: a pixel-producing operation called with a non-empty expression
(that parses to a non-empty, eligible asset set) succeeds with one band per
comma-separated sub-expression — independent of the number of input assets
— each sub-expression evaluated against the binding of the requested asset
names zipped with the stacked bands in order; the returned mask is the
underlying stack's mask, unchanged by the expression step.  Stated for
`tile`, `part` and `preview`. -/
theorem tile_expression_spec (r : STACReader) (assets0 : Option (List String))
    (expression : String)
    (evalE : String → List (String × Band) → Band)
    (readTile readPart readPreview : String → List Band × Grid)
    (hE : expression ≠ "")
    (hne : r._parse_expression expression ≠ [])
    (hv : ∀ a ∈ r._parse_expression expression, a ∈ r.assets) :
    ∃ urls,
      r._get_href (r._parse_expression expression) = .ok urls ∧
      r.tile assets0 expression evalE readTile
        = .ok (_apply_expression evalE (splitComma expression)
                 (r._parse_expression expression)
                 (mergeAssets (urls.map readTile)).1,
               (mergeAssets (urls.map readTile)).2) ∧
      r.part assets0 expression evalE readPart
        = .ok (_apply_expression evalE (splitComma expression)
                 (r._parse_expression expression)
                 (mergeAssets (urls.map readPart)).1,
               (mergeAssets (urls.map readPart)).2) ∧
      r.preview assets0 expression evalE readPreview
        = .ok (_apply_expression evalE (splitComma expression)
                 (r._parse_expression expression)
                 (mergeAssets (urls.map readPreview)).1,
               (mergeAssets (urls.map readPreview)).2) ∧
      (∀ (f : String → List (String × Band) → Band) (bands : List String)
         (data : List Band),
        (_apply_expression f (splitComma expression) bands data).length
          = (splitComma expression).length) := by
  have hok : r._get_href (r._parse_expression expression)
      = .ok ((r._parse_expression expression).map r.hrefOf) := by
    simp [STACReader._get_href,
      checkAssetNames_ok_of r.assets (r._parse_expression expression) hv]
  refine ⟨(r._parse_expression expression).map r.hrefOf, hok, ?_, ?_, ?_, ?_⟩
  · simp [STACReader.tile, hE, hok, List.isEmpty_iff, hne, STACReader._tile]
  · simp [STACReader.part, hE, hok, List.isEmpty_iff, hne, STACReader._part]
  · simp [STACReader.preview, hE, hok, List.isEmpty_iff, hne, STACReader._preview]
  · intro f bands data
    simp [_apply_expression]

/-- Witness for C6 on `demoReader` with the two-block expression
`"B01,B02"`: the result has two bands (one per block, each the fixed-up
evaluator output) and the stack's own mask. -/
theorem tile_expression_spec_witness :
    demoReader.tile none "B01,B02" (fun _ _ => [[FVal.nan]])
        (fun _ => ([[[FVal.finite 7]]], [[255]]))
      = .ok ([[[FVal.finite 0]], [[FVal.finite 0]]], [[255]]) := by
  obtain ⟨urls, h1, h2, h3, h4, h5⟩ := tile_expression_spec demoReader none "B01,B02"
    (fun _ _ => [[FVal.nan]]) (fun _ => ([[[FVal.finite 7]]], [[255]]))
    (fun _ => ([[[FVal.finite 7]]], [[255]])) (fun _ => ([[[FVal.finite 7]]], [[255]]))
    (by decide) (by decide) (by decide)
  have h0 : demoReader._get_href (demoReader._parse_expression "B01,B02")
      = .ok ["https://example.com/B01.tif", "https://example.com/B02.tif"] := rfl
  have hurls : urls = ["https://example.com/B01.tif", "https://example.com/B02.tif"] := by
    have hu := h1.symm.trans h0
    injection hu
  subst hurls
  exact h2.trans (congrArg Except.ok (by decide))

end StacTiler
